import Mathlib

/-!
Verification of the query composition and evaluation engine in
`gruppen.cpp`: a GUID→Flidx database, set-valued queries (point lookup,
range lookup, group reference, list union), the `QueryContext` factory
that builds them, and a mutable group registry whose names are resolved
late, at evaluation time.

Modelling conventions.

* `std::map` is modelled by its lookup function (`key → Option value`);
  `group_db[label] = query` becomes `registerGroup`.
* `std::set<Flidx>` is modelled as `Finset Int`.
* A `Query` value (`std::function<FlidxSet()>`) is modelled by the data
  its closure captures: one constructor per `createQuery` overload.
* Evaluation in the source recurses through the registry and need not
  terminate, so the evaluator takes a call-stack-depth bound `fuel`,
  decremented at every nested `query()` invocation; `EvalRes.outOfFuel`
  means the bound was reached.  Cyclic group references are exactly the
  queries that return `outOfFuel` at every bound.
* The source performs `find(k)->second` without checking the iterator;
  on an absent key this dereferences the end iterator, which is
  undefined behaviour, modelled as the distinguished outcome
  `EvalRes.ub (EvalErr.ubFindGuid k)` / `ubFindGroup`.  Likewise
  `makeFlidxSet(first, last)` constructs `std::vector<int>(last-first+1)`;
  when `last - first + 1` is negative this is a crashing/undefined
  construction, modelled as `EvalRes.ub (EvalErr.ubNegLength vf vl)`.
-/

/-- Source: `typedef int Flidx` (machine `int` modelled as `Int`; no
claim involves overflow). -/
abbrev Flidx : Type := Int

/-- Source: `typedef std::set<Flidx> FlidxSet`. -/
abbrev FlidxSet : Type := Finset Flidx

/-- Source: `typedef int GUID`. -/
abbrev GUID : Type := Int

/-- Source: `typedef std::string GroupLabel`. -/
abbrev GroupLabel : Type := String

/-- A `Query` is a `std::function<FlidxSet()>` closure built by one of
the four `QueryContext::createQuery` overloads; each constructor records
the data that the corresponding closure captures (besides `this`). -/
inductive Query : Type where
  | point (guid : GUID)
  | range (first last : GUID)
  | groupRef (label : GroupLabel)
  | union (queries : List Query)

/-- Source: `typedef std::map<GUID, Flidx> GUIDDatabase`, modelled by its
lookup behaviour. -/
abbrev GUIDDatabase : Type := GUID → Option Flidx

/-- Source: `typedef std::map<GroupLabel, Query> GroupDatabase`, modelled
by its lookup behaviour. -/
abbrev GroupDatabase : Type := GroupLabel → Option Query

/-- Source: `group_db[label] = query` — insert or replace a binding. -/
def registerGroup (reg : GroupDatabase) (label : GroupLabel) (q : Query) :
    GroupDatabase :=
  fun l => if l = label then some q else reg l

/-- The undefined-behaviour outcomes present in the source (see the
module comment). -/
inductive EvalErr : Type where
  | ubFindGuid (guid : GUID)
  | ubFindGroup (label : GroupLabel)
  | ubNegLength (vf vl : Flidx)
deriving DecidableEq

/-- Outcome of invoking a query: a result set, undefined behaviour, or
the call-depth bound was reached (the source would still be recursing). -/
inductive EvalRes : Type where
  | ok (s : FlidxSet)
  | ub (e : EvalErr)
  | outOfFuel
deriving DecidableEq

/-- Source: `FlidxSet makeFlidxSet(Flidx const& single)`. -/
def makeFlidxSet (single : Flidx) : FlidxSet := {single}

/-- Source: `FlidxSet makeFlidxSet(Flidx const& first, Flidx const& last)`:
`std::vector<int> vals(last-first+1); std::iota(vals.begin(), vals.end(), first)`
then insert all.  For `last - first + 1 ≥ 0` this is the set
`\x7b first, first+1, …, last \x7d` (empty when `last = first - 1`); a
negative length is a crashing/undefined vector construction. -/
def makeFlidxSetRange (first last : Flidx) : EvalRes :=
  if last - first + 1 < 0 then EvalRes.ub (EvalErr.ubNegLength first last)
  else EvalRes.ok
    ((Finset.range (last - first + 1).toNat).image
      (fun k : Nat => first + (k : Int)))

/-- The loop body of the list-union closure: iterate the captured
children left to right, accumulating `combi_res`; a child's failure
aborts the loop and propagates. -/
def unionLoop (ev : Query → EvalRes) (acc : FlidxSet) :
    List Query → EvalRes
  | [] => EvalRes.ok acc
  | q :: qs =>
    match ev q with
    | EvalRes.ok s => unionLoop ev (acc ∪ s) qs
    | r => r

/-- Invoking a query against the databases referenced by its factory, as
they stand at invocation time.  `fuel` bounds the depth of nested
`query()` calls. -/
def evalQ : Nat → GUIDDatabase → GroupDatabase → Query → EvalRes
  | 0, _, _, _ => EvalRes.outOfFuel
  | fuel + 1, gdb, reg, q =>
    match q with
    | Query.point guid =>
      match gdb guid with
      | some v => EvalRes.ok (makeFlidxSet v)
      | none => EvalRes.ub (EvalErr.ubFindGuid guid)
    | Query.range first last =>
      match gdb first with
      | none => EvalRes.ub (EvalErr.ubFindGuid first)
      | some vf =>
        match gdb last with
        | none => EvalRes.ub (EvalErr.ubFindGuid last)
        | some vl => makeFlidxSetRange vf vl
    | Query.groupRef label =>
      match reg label with
      | none => EvalRes.ub (EvalErr.ubFindGroup label)
      | some q2 => evalQ fuel gdb reg q2
    | Query.union qs => unionLoop (evalQ fuel gdb reg) ∅ qs

/-- Source: `class QueryContext`, holding `const&` references to the two
databases. -/
structure QueryContext : Type where
  guid_db : GUIDDatabase
  group_db : GroupDatabase

/-- Source: `Query createQuery(GUID const& guid)` — returns the closure
capturing `this` and `guid`. -/
def QueryContext.createQueryGuid (_c : QueryContext) (guid : GUID) : Query :=
  Query.point guid

/-- Source: `Query createQuery(GUID const& first, GUID const& last)`. -/
def QueryContext.createQueryGuidRange (_c : QueryContext)
    (first last : GUID) : Query :=
  Query.range first last

/-- Source: `Query createQuery(GroupLabel const& label)`. -/
def QueryContext.createQueryLabel (_c : QueryContext)
    (label : GroupLabel) : Query :=
  Query.groupRef label

/-- Source: `Query createQuery(std::vector<Query> const& queries)` — the
closure captures the vector `queries` by value. -/
def QueryContext.createQueryList (_c : QueryContext)
    (queries : List Query) : Query :=
  Query.union queries

/-- The pair of database states an evaluation reads through the factory's
references. -/
abbrev DBState : Type := GUIDDatabase × GroupDatabase

/-- State-passing reading of `unionLoop`, threading the database state
through every child invocation, to express that evaluation leaves it
unchanged. -/
def unionLoopSt (ev : DBState → Query → EvalRes × DBState) (st : DBState)
    (acc : FlidxSet) : List Query → EvalRes × DBState
  | [] => (EvalRes.ok acc, st)
  | q :: qs =>
    match ev st q with
    | (EvalRes.ok s, st2) => unionLoopSt ev st2 (acc ∪ s) qs
    | (r, st2) => (r, st2)

/-- State-passing reading of `evalQ`: every lookup reads the current
state and every step passes the state on. -/
def evalQSt : Nat → DBState → Query → EvalRes × DBState
  | 0, st, _ => (EvalRes.outOfFuel, st)
  | fuel + 1, st, q =>
    match q with
    | Query.point guid =>
      match st.1 guid with
      | some v => (EvalRes.ok (makeFlidxSet v), st)
      | none => (EvalRes.ub (EvalErr.ubFindGuid guid), st)
    | Query.range first last =>
      match st.1 first with
      | none => (EvalRes.ub (EvalErr.ubFindGuid first), st)
      | some vf =>
        match st.1 last with
        | none => (EvalRes.ub (EvalErr.ubFindGuid last), st)
        | some vl => (makeFlidxSetRange vf vl, st)
    | Query.groupRef label =>
      match st.2 label with
      | none => (EvalRes.ub (EvalErr.ubFindGroup label), st)
      | some q2 => evalQSt fuel st q2
    | Query.union qs => unionLoopSt (evalQSt fuel) st ∅ qs

/-- The driver's database: `\x7b\x7b0, 0\x7d, \x7b16, 1\x7d, \x7b32, 2\x7d, \x7b64, 3\x7d\x7d`. -/
def db0 : GUIDDatabase :=
  fun g =>
    if g = 0 then some 0
    else if g = 16 then some 1
    else if g = 32 then some 2
    else if g = 64 then some 3
    else none

/-- An empty group registry. -/
def emptyReg : GroupDatabase := fun _ => none

/-- The driver's group name. -/
def ottoLabel : GroupLabel := "otto"

/-- A self-referencing registry: group `"loop"` stores a reference to
itself. -/
def loopLabel : GroupLabel := "loop"

/-- Label `"a"` of a two-step cycle. -/
def aLabel : GroupLabel := "a"

/-- Label `"b"` of a two-step cycle. -/
def bLabel : GroupLabel := "b"

/-- Registry in which `"loop"` directly references itself. -/
def regSelf : GroupDatabase :=
  registerGroup emptyReg loopLabel (Query.groupRef loopLabel)

/-- Registry in which `"a"` references `"b"` and `"b"` references `"a"`. -/
def regAB : GroupDatabase :=
  registerGroup (registerGroup emptyReg aLabel (Query.groupRef bLabel))
    bLabel (Query.groupRef aLabel)

/-- Database used to exhibit the behaviour of a descending range:
`0 ↦ 5`, `16 ↦ 4`, `32 ↦ 0`. -/
def dbC2 : GUIDDatabase :=
  fun g =>
    if g = 0 then some 5
    else if g = 16 then some 4
    else if g = 32 then some 0
    else none

lemma unionLoop_acc (ev : Query → EvalRes) (qs : List Query) :
    ∀ acc : FlidxSet,
    unionLoop ev acc qs =
      match unionLoop ev ∅ qs with
      | EvalRes.ok s => EvalRes.ok (acc ∪ s)
      | r => r := by
  induction qs with
  | nil => intro acc; simp [unionLoop]
  | cons q qs ih =>
    intro acc
    cases hq : ev q with
    | ok s =>
      simp only [unionLoop, hq]
      rw [ih (acc ∪ s), ih (∅ ∪ s)]
      cases unionLoop ev ∅ qs with
      | ok t => simp [Finset.union_assoc]
      | ub e => rfl
      | outOfFuel => rfl
    | ub e => simp only [unionLoop, hq]
    | outOfFuel => simp only [unionLoop, hq]

lemma evalQ_union_cons (fuel : Nat) (gdb : GUIDDatabase) (reg : GroupDatabase)
    (q : Query) (qs : List Query) :
    evalQ (fuel + 1) gdb reg (Query.union (q :: qs)) =
      (match evalQ fuel gdb reg q with
       | EvalRes.ok s =>
         match evalQ (fuel + 1) gdb reg (Query.union qs) with
         | EvalRes.ok t => EvalRes.ok (s ∪ t)
         | r => r
       | r => r) := by
  simp only [evalQ]
  cases hq : evalQ fuel gdb reg q with
  | ok s =>
    simp only [unionLoop, hq]
    rw [unionLoop_acc (evalQ fuel gdb reg) qs (∅ ∪ s)]
    cases unionLoop (evalQ fuel gdb reg) ∅ qs with
    | ok t => simp
    | ub e => rfl
    | outOfFuel => rfl
  | ub e => simp only [unionLoop, hq]
  | outOfFuel => simp only [unionLoop, hq]

lemma evalQ_union_all_ok (fuel : Nat) (gdb : GUIDDatabase)
    (reg : GroupDatabase) (qs : List Query)
    (hall : ∀ q ∈ qs, ∃ s, evalQ fuel gdb reg q = EvalRes.ok s) :
    ∃ S : FlidxSet,
      evalQ (fuel + 1) gdb reg (Query.union qs) = EvalRes.ok S ∧
      ∀ x : Flidx, x ∈ S ↔
        ∃ q ∈ qs, ∃ s, evalQ fuel gdb reg q = EvalRes.ok s ∧ x ∈ s := by
  induction qs with
  | nil =>
    refine ⟨∅, by simp [evalQ, unionLoop], ?_⟩
    simp
  | cons q qs ih =>
    obtain ⟨s, hs⟩ := hall q (List.mem_cons_self q qs)
    obtain ⟨S, hS, hmem⟩ := ih (fun q2 hq2 => hall q2 (List.mem_cons_of_mem q hq2))
    refine ⟨s ∪ S, ?_, ?_⟩
    · rw [evalQ_union_cons, hs, hS]
    · intro x
      rw [Finset.mem_union, hmem x]
      constructor
      · rintro (hx | ⟨q2, hq2, t, ht, hxt⟩)
        · exact ⟨q, List.mem_cons_self q qs, s, hs, hx⟩
        · exact ⟨q2, List.mem_cons_of_mem q hq2, t, ht, hxt⟩
      · rintro ⟨q2, hq2, t, ht, hxt⟩
        rcases List.mem_cons.mp hq2 with rfl | hq2
        · rw [hs] at ht
          injection ht with h2
          subst h2
          exact Or.inl hxt
        · exact Or.inr ⟨q2, hq2, t, ht, hxt⟩

lemma unionLoopSt_spec (fuel : Nat)
    (h : ∀ (st : DBState) (q : Query),
      evalQSt fuel st q = (evalQ fuel st.1 st.2 q, st)) (qs : List Query) :
    ∀ (st : DBState) (acc : FlidxSet),
    unionLoopSt (evalQSt fuel) st acc qs =
      (unionLoop (evalQ fuel st.1 st.2) acc qs, st) := by
  induction qs with
  | nil => intro st acc; rfl
  | cons q qs ih =>
    intro st acc
    simp only [unionLoopSt, unionLoop, h st q]
    cases evalQ fuel st.1 st.2 q with
    | ok s => exact ih st (acc ∪ s)
    | ub e => rfl
    | outOfFuel => rfl

lemma evalQSt_spec : ∀ (fuel : Nat) (st : DBState) (q : Query),
    evalQSt fuel st q = (evalQ fuel st.1 st.2 q, st) := by
  intro fuel
  induction fuel with
  | zero => intro st q; rfl
  | succ fuel ih =>
    intro st q
    cases q with
    | point guid =>
      simp only [evalQSt, evalQ]
      cases gdb : st.1 guid with
      | some v => rfl
      | none => rfl
    | range first last =>
      simp only [evalQSt, evalQ]
      cases hf : st.1 first with
      | none => rfl
      | some vf =>
        cases hl : st.1 last with
        | none => rfl
        | some vl => rfl
    | groupRef label =>
      simp only [evalQSt, evalQ]
      cases hg : st.2 label with
      | none => rfl
      | some q2 => exact ih st q2
    | union qs =>
      simp only [evalQSt, evalQ]
      exact unionLoopSt_spec fuel ih qs st ∅

lemma makeFlidxSetRange_ok (vf vl : Int) (hle : vf ≤ vl) :
    ∃ S : FlidxSet, makeFlidxSetRange vf vl = EvalRes.ok S ∧
      (S.card : Int) = vl - vf + 1 ∧
      ∀ x : Int, x ∈ S ↔ vf ≤ x ∧ x ≤ vl := by
  refine ⟨(Finset.range (vl - vf + 1).toNat).image
      (fun k : Nat => vf + (k : Int)), ?_, ?_, ?_⟩
  · have hc : ¬ (vl - vf + 1 < 0) := by omega
    rw [makeFlidxSetRange, if_neg hc]
  · have hinj : Function.Injective (fun k : Nat => vf + (k : Int)) := by
      intro a b hab
      have hab2 : vf + (a : Int) = vf + (b : Int) := hab
      omega
    rw [Finset.card_image_of_injective _ hinj, Finset.card_range]
    omega
  · intro x
    simp only [Finset.mem_image, Finset.mem_range]
    constructor
    · rintro ⟨k, hk, rfl⟩
      show vf ≤ vf + (k : Int) ∧ vf + (k : Int) ≤ vl
      omega
    · rintro ⟨h1, h2⟩
      refine ⟨(x - vf).toNat, by omega, ?_⟩
      show vf + ((x - vf).toNat : Int) = x
      omega

example : evalQ 1 db0 emptyReg (Query.point 0) = EvalRes.ok {0} := by decide

example : evalQ 1 db0 emptyReg (Query.range 0 32) = EvalRes.ok {0, 1, 2} := by
  decide

example :
    evalQ 2 db0 (registerGroup emptyReg ottoLabel (Query.point 0))
      (Query.groupRef ottoLabel) = EvalRes.ok {0} := by decide

example :
    evalQ 3 db0 (registerGroup emptyReg ottoLabel (Query.point 0))
      (Query.union [Query.groupRef ottoLabel, Query.groupRef ottoLabel,
        Query.point 16, Query.point 32, Query.point 64]) =
      EvalRes.ok {0, 1, 2, 3} := by decide

lemma cycleSelf_aux : ∀ (fuel : Nat) (gdb : GUIDDatabase),
    evalQ fuel gdb regSelf (Query.groupRef loopLabel) = EvalRes.outOfFuel := by
  intro fuel
  induction fuel with
  | zero => intro gdb; rfl
  | succ fuel ih =>
    intro gdb
    have h : regSelf loopLabel = some (Query.groupRef loopLabel) := rfl
    simp only [evalQ, h]
    exact ih gdb

lemma cycleAB_aux : ∀ (fuel : Nat) (gdb : GUIDDatabase),
    evalQ fuel gdb regAB (Query.groupRef aLabel) = EvalRes.outOfFuel ∧
    evalQ fuel gdb regAB (Query.groupRef bLabel) = EvalRes.outOfFuel := by
  intro fuel
  induction fuel with
  | zero => intro gdb; exact ⟨rfl, rfl⟩
  | succ fuel ih =>
    intro gdb
    have ha : regAB aLabel = some (Query.groupRef bLabel) := rfl
    have hb : regAB bLabel = some (Query.groupRef aLabel) := rfl
    constructor
    · simp only [evalQ, ha]
      exact (ih gdb).2
    · simp only [evalQ, hb]
      exact (ih gdb).1

/-- Claim C1: a GroupRef resolves its name against the registry at every
`evaluate()` call, so evaluating after `register(g, q)` reduces to
evaluating `q` against the current registry.  However, evaluating an
unregistered name does not fail with a `NotFound` error as the claim
states: the source dereferences the end iterator returned by
`group_db.find(label)` — undefined behaviour, modelled as
`EvalRes.ub (EvalErr.ubFindGroup g)`. -/
theorem claimC1_groupRef_late_binding :
    ∀ (fuel : Nat) (gdb : GUIDDatabase) (reg : GroupDatabase)
      (g : GroupLabel) (q : Query),
    evalQ (fuel + 1) gdb (registerGroup reg g q) (Query.groupRef g) =
      evalQ fuel gdb (registerGroup reg g q) q ∧
    (reg g = none →
      evalQ (fuel + 1) gdb reg (Query.groupRef g) =
        EvalRes.ub (EvalErr.ubFindGroup g)) := by
  intro fuel gdb reg g q
  constructor
  · have h : registerGroup reg g q g = some q := by simp [registerGroup]
    simp only [evalQ, h]
  · intro h
    simp only [evalQ, h]

/-- Witness for C1 at the driver's data: registering `"otto"` and then
evaluating the reference equals evaluating the stored query; evaluating
against the empty registry hits the undefined lookup. -/
theorem claimC1_groupRef_late_binding_witness :
    (evalQ 2 db0 (registerGroup emptyReg ottoLabel (Query.point 0))
        (Query.groupRef ottoLabel) =
      evalQ 1 db0 (registerGroup emptyReg ottoLabel (Query.point 0))
        (Query.point 0)) ∧
    emptyReg ottoLabel = none ∧
    evalQ 2 db0 emptyReg (Query.groupRef ottoLabel) =
      EvalRes.ub (EvalErr.ubFindGroup ottoLabel) :=
  ⟨(claimC1_groupRef_late_binding 1 db0 emptyReg ottoLabel (Query.point 0)).1,
   rfl,
   (claimC1_groupRef_late_binding 1 db0 emptyReg ottoLabel (Query.point 0)).2 rfl⟩

/-- Claim C2 (behaviour at the claimed failing inputs): with
`value(first) = 5 > 4 = value(last)` the source returns the *empty set*
(the vector length `4 - 5 + 1` is zero), and with
`value(first) = 5 > 0 = value(last)` it constructs a vector of negative
length `-4` — a crashing/undefined construction.  In neither case does an
`InvalidRange` error exist or occur. -/
theorem claimC2_range_descending_behaviour :
    ∀ (fuel : Nat) (reg : GroupDatabase),
    evalQ (fuel + 1) dbC2 reg (Query.range 0 16) = EvalRes.ok ∅ ∧
    evalQ (fuel + 1) dbC2 reg (Query.range 0 32) =
      EvalRes.ub (EvalErr.ubNegLength 5 0) := by
  intro fuel reg
  have h0 : dbC2 0 = some 5 := rfl
  have h16 : dbC2 16 = some 4 := rfl
  have h32 : dbC2 32 = some 0 := rfl
  constructor
  · simp only [evalQ, h0, h16]
    decide
  · simp only [evalQ, h0, h32]
    decide

/-- Claim C3 (behaviour at the claimed failing inputs): a group that
references itself, directly (`"loop"`) or through a two-step chain
(`"a" → "b" → "a"`), never finishes evaluating — at every call-depth
bound the evaluation is still recursing (`outOfFuel`); no `CycleDetected`
error exists in the source. -/
theorem claimC3_cycle_recurses_unboundedly :
    ∀ (fuel : Nat) (gdb : GUIDDatabase),
    evalQ fuel gdb regSelf (Query.groupRef loopLabel) = EvalRes.outOfFuel ∧
    evalQ fuel gdb regAB (Query.groupRef aLabel) = EvalRes.outOfFuel := by
  intro fuel gdb
  exact ⟨cycleSelf_aux fuel gdb, (cycleAB_aux fuel gdb).1⟩

/-- Claim C4: for every identifier present in the database, a point query
evaluates to exactly the singleton set of its value. -/
theorem claimC4_point_singleton (fuel : Nat) (gdb : GUIDDatabase)
    (reg : GroupDatabase) (i : GUID) (v : Flidx) (h : gdb i = some v) :
    evalQ (fuel + 1) gdb reg (Query.point i) = EvalRes.ok {v} := by
  simp only [evalQ, h]
  rfl

/-- Witness for C4: `point(0)` on the driver's database yields `{0}`. -/
theorem claimC4_point_singleton_witness :
    db0 0 = some 0 ∧
    evalQ 1 db0 emptyReg (Query.point 0) = EvalRes.ok {0} :=
  ⟨rfl, claimC4_point_singleton 0 db0 emptyReg 0 0 rfl⟩

/-- Claim C5: for identifiers present with `value(first) ≤ value(last)`,
the range query returns the set of every value from `value(first)` to
`value(last)` inclusive, of cardinality `value(last) - value(first) + 1`,
containing both endpoints. -/
theorem claimC5_range_inclusive (fuel : Nat) (gdb : GUIDDatabase)
    (reg : GroupDatabase) (first last : GUID) (vf vl : Flidx)
    (hf : gdb first = some vf) (hl : gdb last = some vl) (hle : vf ≤ vl) :
    ∃ S : FlidxSet,
      evalQ (fuel + 1) gdb reg (Query.range first last) = EvalRes.ok S ∧
      (S.card : Int) = vl - vf + 1 ∧ vf ∈ S ∧ vl ∈ S ∧
      ∀ x : Flidx, x ∈ S ↔ vf ≤ x ∧ x ≤ vl := by
  obtain ⟨S, hS, hcard, hmem⟩ := makeFlidxSetRange_ok vf vl hle
  refine ⟨S, ?_, hcard, (hmem vf).mpr ⟨le_refl vf, hle⟩,
    (hmem vl).mpr ⟨hle, le_refl vl⟩, hmem⟩
  simp only [evalQ, hf, hl]
  exact hS

/-- Witness for C5: `range(0, 32)` on the driver's database, whose values
are `0` and `2`, yields a 3-element set containing `0` and `2`. -/
theorem claimC5_range_inclusive_witness :
    db0 0 = some 0 ∧ db0 32 = some 2 ∧ ((0 : Flidx) ≤ 2) ∧
    (∃ S : FlidxSet,
      evalQ 1 db0 emptyReg (Query.range 0 32) = EvalRes.ok S ∧
      (S.card : Int) = 2 - 0 + 1 ∧ (0 : Flidx) ∈ S ∧ (2 : Flidx) ∈ S ∧
      ∀ x : Flidx, x ∈ S ↔ (0 : Flidx) ≤ x ∧ x ≤ 2) :=
  ⟨rfl, rfl, by decide,
   claimC5_range_inclusive 0 db0 emptyReg 0 32 0 2 rfl rfl (by decide)⟩

/-- Claim C6: when every child evaluation succeeds, the union query
returns exactly the set union of the children's result sets (membership
holds exactly for elements of some child's result), the result is
invariant under permutation of the child list, and the empty union
returns the empty set. -/
theorem claimC6_union_set_semantics (fuel : Nat) (gdb : GUIDDatabase)
    (reg : GroupDatabase) (qs : List Query)
    (hall : ∀ q ∈ qs, ∃ s, evalQ fuel gdb reg q = EvalRes.ok s) :
    ∃ S : FlidxSet,
      evalQ (fuel + 1) gdb reg (Query.union qs) = EvalRes.ok S ∧
      (∀ x : Flidx, x ∈ S ↔
        ∃ q ∈ qs, ∃ s, evalQ fuel gdb reg q = EvalRes.ok s ∧ x ∈ s) ∧
      (∀ qs2 : List Query, qs.Perm qs2 →
        evalQ (fuel + 1) gdb reg (Query.union qs2) = EvalRes.ok S) ∧
      evalQ (fuel + 1) gdb reg (Query.union ([] : List Query)) =
        EvalRes.ok ∅ := by
  obtain ⟨S, hS, hmem⟩ := evalQ_union_all_ok fuel gdb reg qs hall
  refine ⟨S, hS, hmem, ?_, rfl⟩
  intro qs2 hperm
  obtain ⟨S2, hS2, hmem2⟩ := evalQ_union_all_ok fuel gdb reg qs2
    (fun q hq => hall q (hperm.mem_iff.mpr hq))
  have hSS : S2 = S := by
    apply Finset.ext
    intro x
    rw [hmem2 x, hmem x]
    constructor
    · rintro ⟨q, hq, t, ht, hxt⟩
      exact ⟨q, hperm.mem_iff.mpr hq, t, ht, hxt⟩
    · rintro ⟨q, hq, t, ht, hxt⟩
      exact ⟨q, hperm.mem_iff.mp hq, t, ht, hxt⟩
  rw [hS2, hSS]

/-- Witness for C6: the union of `point(0)` and `point(16)` on the
driver's database. -/
theorem claimC6_union_set_semantics_witness :
    (∀ q ∈ [Query.point 0, Query.point 16], ∃ s,
      evalQ 1 db0 emptyReg q = EvalRes.ok s) ∧
    (∃ S : FlidxSet,
      evalQ 2 db0 emptyReg (Query.union [Query.point 0, Query.point 16]) =
        EvalRes.ok S ∧
      (∀ x : Flidx, x ∈ S ↔
        ∃ q ∈ [Query.point 0, Query.point 16], ∃ s,
          evalQ 1 db0 emptyReg q = EvalRes.ok s ∧ x ∈ s) ∧
      (∀ qs2 : List Query, List.Perm [Query.point 0, Query.point 16] qs2 →
        evalQ 2 db0 emptyReg (Query.union qs2) = EvalRes.ok S) ∧
      evalQ 2 db0 emptyReg (Query.union ([] : List Query)) =
        EvalRes.ok ∅) := by
  have hall : ∀ q ∈ [Query.point 0, Query.point 16], ∃ s,
      evalQ 1 db0 emptyReg q = EvalRes.ok s := by
    intro q hq
    rcases List.mem_cons.mp hq with rfl | hq2
    · exact ⟨{0}, by decide⟩
    · rcases List.mem_cons.mp hq2 with rfl | hq3
      · exact ⟨{1}, by decide⟩
      · exact absurd hq3 (List.not_mem_nil q)
  exact ⟨hall,
    claimC6_union_set_semantics 1 db0 emptyReg
      [Query.point 0, Query.point 16] hall⟩

/-- Claim C7 (behaviour at the claimed failing input): for an identifier
absent from the database, the source does not fail with a `NotFound`
error — it dereferences the end iterator returned by `guid_db.find`,
undefined behaviour modelled as `EvalRes.ub (EvalErr.ubFindGuid i)`. -/
theorem claimC7_point_absent (fuel : Nat) (gdb : GUIDDatabase)
    (reg : GroupDatabase) (i : GUID) (h : gdb i = none) :
    evalQ (fuel + 1) gdb reg (Query.point i) =
      EvalRes.ub (EvalErr.ubFindGuid i) := by
  simp only [evalQ, h]

/-- Witness for C7: GUID `7` is absent from the driver's database. -/
theorem claimC7_point_absent_witness :
    db0 7 = none ∧
    evalQ 1 db0 emptyReg (Query.point 7) =
      EvalRes.ub (EvalErr.ubFindGuid 7) :=
  ⟨rfl, claimC7_point_absent 0 db0 emptyReg 7 rfl⟩

/-- Claim C8: each of the four factory operations returns the query
value built from its parameters alone, immediately and for every input;
the result is independent of the contents of the two databases the
factory is bound to (no lookup at construction, no failure on absent
identifiers or unregistered names). -/
theorem claimC8_construction_no_lookup :
    ∀ (c c2 : QueryContext) (g first2 last2 : GUID) (lab : GroupLabel)
      (qs : List Query),
    c.createQueryGuid g = Query.point g ∧
    c.createQueryGuid g = c2.createQueryGuid g ∧
    c.createQueryGuidRange first2 last2 = Query.range first2 last2 ∧
    c.createQueryGuidRange first2 last2 = c2.createQueryGuidRange first2 last2 ∧
    c.createQueryLabel lab = Query.groupRef lab ∧
    c.createQueryLabel lab = c2.createQueryLabel lab ∧
    c.createQueryList qs = Query.union qs ∧
    c.createQueryList qs = c2.createQueryList qs :=
  fun _ _ _ _ _ _ _ => ⟨rfl, rfl, rfl, rfl, rfl, rfl, rfl, rfl⟩

/-- Claim C9: evaluation threads the database state through every step
and returns it unchanged, for every query and every outcome (success,
undefined lookup, or exhausted call depth), and re-invoking the same
query against the resulting state reproduces the same outcome. -/
theorem claimC9_eval_preserves_state :
    ∀ (fuel : Nat) (st : DBState) (q : Query),
    (evalQSt fuel st q).2 = st ∧
    evalQSt fuel ((evalQSt fuel st q).2) q = evalQSt fuel st q := by
  intro fuel st q
  simp [evalQSt_spec]

/-- Claim C10: the list-union closure captures its child list by value:
the factory returns exactly `Query.union qs`, and every invocation
evaluates exactly the captured children, in list order — the empty
capture yields the empty set, and a cons capture evaluates its head and
then behaves as the union of the tail, combining by set union and
propagating a failing child.  The child list is part of the query value,
not re-resolved through the registry at evaluation time. -/
theorem claimC10_union_captures_by_value :
    ∀ (c : QueryContext) (fuel : Nat) (gdb : GUIDDatabase)
      (reg : GroupDatabase) (q : Query) (qs : List Query),
    c.createQueryList qs = Query.union qs ∧
    evalQ (fuel + 1) gdb reg (Query.union ([] : List Query)) =
      EvalRes.ok ∅ ∧
    evalQ (fuel + 1) gdb reg (Query.union (q :: qs)) =
      (match evalQ fuel gdb reg q with
       | EvalRes.ok s =>
         match evalQ (fuel + 1) gdb reg (Query.union qs) with
         | EvalRes.ok t => EvalRes.ok (s ∪ t)
         | r => r
       | r => r) := by
  intro c fuel gdb reg q qs
  exact ⟨rfl, rfl, evalQ_union_cons fuel gdb reg q qs⟩
